import Mathlib

/-!
# Verification of the sup-eligibility-api eligibility engine

Shallow embedding of the eligibility-aggregation service
(`src/services/eligibilityService.ts`, `src/services/stack/stackApiService.ts`,
`src/services/blockchain/blockchainService.ts`, `src/utils/UBARecipients.ts`,
`src/config/index.ts`).

Modelling conventions:
* TypeScript `bigint` values are Lean `Int`; `bigint` division (`/`) truncates
  toward zero, which is `Int.tdiv`.
* TypeScript `number` values that hold integers are Lean `Int` together with an
  explicit `jsNumber` rounding step wherever the source converts a `bigint`
  (or an out-of-double-range integer) to a `number`.  `jsNumber` implements
  IEEE-754 double rounding (53 significant bits, round half to even) for
  integer inputs; it is exact for `|n| < 2 ^ 1024` apart from the 53-bit
  mantissa truncation (overflow to infinity is outside every range used here).
* JavaScript `Map` objects are association lists with `Map.set` semantics
  (update in place if the key is present, append otherwise).
* Timestamps (`Date` / ISO strings) are integers in milliseconds.
* External I/O (HTTP fetches, chain RPC reads) is a parameter of the embedding
  (`Env`); a fallible call is a `Except String` value.  Fire-and-forget and
  `Promise.all` fan-outs are modelled by the sequential interleaving in input
  order; `p-memoize` wrappers are modelled by their first (cache-miss) call.
* Operational events (`logger.slackNotify`) are accumulated in an `Alert` list.
-/

deriving instance DecidableEq for Except

namespace SupEligibility

/-- JavaScript `String.prototype.toLowerCase` (ASCII-level model). -/
def toLowerCase (s : String) : String := String.mk (s.data.map Char.toLower)

/-- JavaScript `String.prototype.replace(/_/g, "-")`. -/
def replaceUnderscores (s : String) : String :=
  String.mk (s.data.map (fun c => if c = '_' then '-' else c))

/-- `Map.get`: first entry with the given key. -/
def mapGet {α β : Type} [DecidableEq α] (m : List (α × β)) (k : α) : Option β :=
  (m.find? (fun e => e.1 = k)).map (·.2)

/-- `Map.set`: update in place when the key is present, append otherwise. -/
def mapSet {α β : Type} [DecidableEq α] (m : List (α × β)) (k : α) (v : β) :
    List (α × β) :=
  match m with
  | [] => [(k, v)]
  | e :: rest => if e.1 = k then (k, v) :: rest else e :: mapSet rest k v

/-- Round `n / 2 ^ k` to the nearest integer, ties to even. -/
def roundHalfEven (n k : Nat) : Nat :=
  let q := n / 2 ^ k
  let r := n % 2 ^ k
  let half := 2 ^ (k - 1)
  if r < half then q
  else if half < r then q + 1
  else if q % 2 = 0 then q else q + 1

/-- Number of halvings needed to bring `m` below `2 ^ 53` (the excess of the
bit length over 53), computed with structural fuel so that it reduces in the
kernel; 1100 halvings cover every double-range integer. -/
def excessBits : Nat → Nat → Nat
  | 0, _ => 0
  | fuel + 1, m => if m < 2 ^ 53 then 0 else excessBits fuel (m / 2) + 1

/-- IEEE-754 double rounding of a natural number: keep 53 significant bits,
round half to even.  Exact below `2 ^ 53`. -/
def jsNumberOfNat (n : Nat) : Nat :=
  if n < 2 ^ 53 then n
  else
    let s := excessBits 1100 n
    roundHalfEven n s * 2 ^ s

/-- JavaScript `Number(x)` for an integer-valued `bigint` `x` (and likewise the
value produced by double arithmetic on integral doubles). -/
def jsNumber (i : Int) : Int :=
  if 0 ≤ i then (jsNumberOfNat i.toNat : Int) else -(jsNumberOfNat (-i).toNat : Int)

/-- JavaScript `a + b` on two integral doubles: the exact sum, rounded. -/
def jsAdd (a b : Int) : Int := jsNumber (a + b)

/-! ## Configuration (`src/config/index.ts`) -/

structure PointSystem where
  id : Nat
  name : String
  gdaPoolAddress : String
  flowrate : Int
  totalUnits : Int
  apiKey : String
deriving Repr, DecidableEq

/-- The statically configured point systems (environment keys modelled empty). -/
def pointSystems : List PointSystem :=
  [ { id := 7691, name := "Community Activations",
      gdaPoolAddress := "0xB7d7331529dC6fb68CB602d9B738CabD84d3ae6d",
      flowrate := 1607510288065843368, totalUnits := 0, apiKey := "" },
    { id := 7695, name := "AlfaFrens",
      gdaPoolAddress := "0x0ac6aCe504CF4583dE327808834Aaf8AA3294FE3",
      flowrate := 1607510288065843621, totalUnits := 0, apiKey := "" },
    { id := 7696, name := "SuperBoring 1st Wave",
      gdaPoolAddress := "0xbeF36F4D3fC9b96A5eD5002a3308F768B44Cef7e",
      flowrate := 1286008230452674897, totalUnits := 0, apiKey := "" },
    { id := 7703, name := "Flow Guilds & Octant SQF",
      gdaPoolAddress := "0xAAc36Fe22DC97C1942000A13a3967D8ef1aB11f4",
      flowrate := 321502057613168724, totalUnits := 0, apiKey := "" },
    { id := 7712, name := "Payments & Distributions",
      gdaPoolAddress := "0x5640003112EEaAd042D055D27072e8261d28FCe4",
      flowrate := 902475598864699132, totalUnits := 0, apiKey := "" },
    { id := 7702, name := "GoodDollar",
      gdaPoolAddress := "0x17A9ca096295472b7Ae1ECe9c7C5ad8248B9FF3d",
      flowrate := 643004115226337429, totalUnits := 0, apiKey := "" },
    { id := 7704, name := "Giveth",
      gdaPoolAddress := "0x17A9ca096295472b7Ae1ECe9c7C5ad8248B9FF3d",
      flowrate := 643004115226337429, totalUnits := 0, apiKey := "" } ]

/-- The scalar configuration values (defaults from `src/config/index.ts`). -/
structure Config where
  POINT_THRESHOLD : Int := 99
  POINTS_TO_ASSIGN : Int := 99
  COMMUNITY_ACTIVATION_ID : Nat := 7370
  THRESHOLD_TIME_PERIOD : Int := 3600
  THRESHOLD_MAX_USERS : Nat := 100
deriving Repr

def defaultConfig : Config := {}

/-! ## Data model (`src/models/types.ts`) -/

structure StackAllocation where
  pointSystemUuid : String
  accountAddress : String
  points : Int
  maxCreatedAt : String
  allocation : Int
deriving Repr, DecidableEq

structure PointSystemEligibility where
  pointSystemId : Nat
  pointSystemName : String
  eligible : Bool
  points : Int
  claimedAmount : Int
  needToClaim : Bool
  gdaPoolAddress : String
  estimatedFlowRate : String
deriving Repr, DecidableEq

structure AddressEligibility where
  address : String
  hasAllocations : Bool
  claimNeeded : Bool
  totalFlowRate : String
  eligibility : List PointSystemEligibility
deriving Repr, DecidableEq

/-- Operational events (`logger.slackNotify` calls), kept structured: each
constructor records the data the emitted message names. -/
inductive Alert where
  | allocFetchFailed (pointSystemId : Nat) (addresses : List String)
  | lockerFetchFailed (addresses : List String)
  | claimStatusFetchFailed (addresses : List String)
  | nonceFailed (address : String)
  | quotaExceeded (address : String) (maxUsers : Nat)
  | grantSucceeded (address : String) (recipients : Nat) (lastHour : Nat)
  | grantFailed (address : String)
  | refreshed (address : String)
deriving Repr, DecidableEq

/-! ## Recipient ledger (`src/utils/UBARecipients.ts`)

The JSON file storage is modelled as the in-memory list of records it holds;
`saveRecipients` always succeeds.  `UniversalPointRecipient` timestamps are
milliseconds. -/

structure UniversalPointRecipient where
  address : String
  topUpDate : Int
  lockerAddress : Option String := none
  lockerCheckedDate : Option Int := none
  claimed : Option Bool := none
  lastChecked : Option Int := none
deriving Repr, DecidableEq

/-- A `Partial<UniversalPointRecipient>`: only the present properties. -/
structure RecipientPatch where
  address : Option String := none
  topUpDate : Option Int := none
  lockerAddress : Option String := none
  lockerCheckedDate : Option Int := none
  claimed : Option Bool := none
  lastChecked : Option Int := none
deriving Repr, DecidableEq

/-- JavaScript object spread `{...r, ...p}`: properties present in `p`
override those of `r`. -/
def mergeRecipient (r : UniversalPointRecipient) (p : RecipientPatch) :
    UniversalPointRecipient :=
  { address := p.address.getD r.address
    topUpDate := p.topUpDate.getD r.topUpDate
    lockerAddress := p.lockerAddress.orElse (fun _ => r.lockerAddress)
    lockerCheckedDate := p.lockerCheckedDate.orElse (fun _ => r.lockerCheckedDate)
    claimed := p.claimed.orElse (fun _ => r.claimed)
    lastChecked := p.lastChecked.orElse (fun _ => r.lastChecked) }

/-- `recipients.findIndex(r => r.address.toLowerCase() === addr.toLowerCase())`
followed by in-place replacement of the first match; `none` if no match. -/
def replaceFirstMatch (addr : String)
    (f : UniversalPointRecipient → UniversalPointRecipient) :
    List UniversalPointRecipient → Option (List UniversalPointRecipient)
  | [] => none
  | r :: rest =>
    if toLowerCase r.address = toLowerCase addr then some (f r :: rest)
    else (replaceFirstMatch addr f rest).map (r :: ·)

/-- `addRecipient` (`UBARecipients.ts`): merge into the existing record
(refreshing `topUpDate`) or append a new record. -/
def addRecipient (p : RecipientPatch) (now : Int)
    (recipients : List UniversalPointRecipient) :
    Bool × List UniversalPointRecipient :=
  match p.address with
  | none => (false, recipients)
  | some addr =>
    match replaceFirstMatch addr (fun r => { mergeRecipient r p with topUpDate := now })
        recipients with
    | some updated => (true, updated)
    | none =>
      (true, recipients ++ [mergeRecipient { address := addr, topUpDate := now } p])

/-- `updateRecipient` (`UBARecipients.ts`): merge updates into the existing
record; report failure (and change nothing) when the address is absent. -/
def updateRecipient (address : String) (updates : RecipientPatch)
    (recipients : List UniversalPointRecipient) :
    Bool × List UniversalPointRecipient :=
  match replaceFirstMatch address (fun r => mergeRecipient r updates) recipients with
  | none => (false, recipients)
  | some updated => (true, updated)

/-- `getRecipient` (`UBARecipients.ts`). -/
def getRecipient (address : String) (recipients : List UniversalPointRecipient) :
    Option UniversalPointRecipient :=
  recipients.find? (fun r => toLowerCase r.address = toLowerCase address)

/-- `latestRecipients(timePeriod)`: records whose `topUpDate` is within
`timePeriod` seconds of `now`. -/
def latestRecipients (timePeriod : Int) (now : Int)
    (recipients : List UniversalPointRecipient) : List UniversalPointRecipient :=
  recipients.filter (fun r => decide (now - timePeriod * 1000 ≤ r.topUpDate))

/-- Number of ledger records for one address (case-insensitive). -/
def countFor (recipients : List UniversalPointRecipient) (address : String) : Nat :=
  (recipients.filter (fun r => toLowerCase r.address = toLowerCase address)).length

/-- The ledger invariant: at most one record per address (case-insensitive). -/
def AtMostOnePerAddress (recipients : List UniversalPointRecipient) : Prop :=
  ∀ a : String, countFor recipients a ≤ 1

/-! ## Stack API client (`src/services/stack/stackApiService.ts`) -/

/-- The deterministic `uniqueId` sent with a point grant:
`eventName.toLowerCase().replace(/_/g, "-") + "-" + address.toLowerCase()`. -/
def assignPointsUniqueId (eventName address : String) : String :=
  replaceUnderscores (toLowerCase eventName) ++ "-" ++ toLowerCase address

/-- Outcome of `assignPoints`: the `uniqueId` it posted, whether it reported
success, the resulting recipient ledger, and the emitted events. -/
structure GrantResult where
  uniqueId : String
  success : Bool
  ledger : List UniversalPointRecipient
  alerts : List Alert
deriving Repr

/-- `assignPoints` (`stackApiService.ts`): post the grant event; on a 2xx
response for the `universal_allocation` event record the recipient in the
ledger; on failure report `false` (never throw). -/
def assignPoints (address : String) (_points : Int) (eventName : String)
    (httpResponse : Except String Nat) (cfg : Config) (now : Int)
    (ledger : List UniversalPointRecipient) : GrantResult :=
  let uniqueId := assignPointsUniqueId eventName address
  match httpResponse with
  | .error _ => { uniqueId, success := false, ledger, alerts := [.grantFailed address] }
  | .ok status =>
    if 200 ≤ status ∧ status < 300 then
      if eventName = "universal_allocation" then
        let updated := (addRecipient { address := some address } now ledger).2
        let lastHour := (latestRecipients cfg.THRESHOLD_TIME_PERIOD now updated).length
        { uniqueId, success := true, ledger := updated,
          alerts := [.grantSucceeded address updated.length lastHour] }
      else
        { uniqueId, success := true, ledger, alerts := [] }
    else { uniqueId, success := false, ledger, alerts := [.grantFailed address] }

/-- One point system of `fetchAllAllocations`: a successful fetch stores the
allocation list, a failure stores the empty list and emits an alert naming the
point system and the addresses. -/
def allocStep (allocFetch : Nat → List String → Except String (List StackAllocation))
    (addresses : List String)
    (acc : List (Nat × List StackAllocation) × List Alert) (ps : PointSystem) :
    List (Nat × List StackAllocation) × List Alert :=
  match allocFetch ps.id addresses with
  | .ok allocations => (mapSet acc.1 ps.id allocations, acc.2)
  | .error _ =>
    (mapSet acc.1 ps.id [], acc.2 ++ [.allocFetchFailed ps.id addresses])

/-- `fetchAllAllocations` (`stackApiService.ts`): one independent fetch per
configured point system; a single failure degrades only that system. -/
def fetchAllAllocations
    (allocFetch : Nat → List String → Except String (List StackAllocation))
    (addresses : List String) :
    List (Nat × List StackAllocation) × List Alert :=
  pointSystems.foldl (allocStep allocFetch addresses) ([], [])

/-! ## Blockchain client
(`src/services/stack/formatUtils.ts` BlockchainService part, and
`src/services/blockchain/blockchainService.ts` for `getLockers`) -/

def ZERO_ADDRESS : String := "0x0000000000000000000000000000000000000000"

/-- Write one claim status into the nested map (guarded `statusMap?.set`). -/
def setClaimStatus (m : List (String × List (Nat × Int))) (address : String)
    (psId : Nat) (units : Int) : List (String × List (Nat × Int)) :=
  match mapGet m address with
  | some inner => mapSet m address (mapSet inner psId units)
  | none => m

/-- One `(address, point system)` pair of `checkAllClaimStatuses`: a
sentinel-zero (or empty) locker address is pre-filled with zero and skips the
read; otherwise a read is issued (and logged in the second component), a
failed read defaulting the pair to zero. -/
def claimStatusStep (claimRead : String → String → Except String Int)
    (e : String × String)
    (acc : List (String × List (Nat × Int)) × List (String × Nat))
    (ps : PointSystem) :
    List (String × List (Nat × Int)) × List (String × Nat) :=
  if e.2 = "" ∨ e.2 = ZERO_ADDRESS then
    (setClaimStatus acc.1 e.1 ps.id 0, acc.2)
  else
    match claimRead e.2 ps.gdaPoolAddress with
    | .ok memberUnits =>
      (setClaimStatus acc.1 e.1 ps.id memberUnits, acc.2 ++ [(e.1, ps.id)])
    | .error _ =>
      (setClaimStatus acc.1 e.1 ps.id 0, acc.2 ++ [(e.1, ps.id)])

/-- `checkAllClaimStatuses`: one read per `(address, point system)` pair;
the second component logs the `(address, pointSystemId)` pairs for which a
network read was issued. -/
def checkAllClaimStatuses (claimRead : String → String → Except String Int)
    (lockerAddresses : List (String × String)) :
    List (String × List (Nat × Int)) × List (String × Nat) :=
  let init := lockerAddresses.foldl
    (fun m e => mapSet m e.1 ([] : List (Nat × Int))) []
  lockerAddresses.foldl
    (fun acc e => pointSystems.foldl (claimStatusStep claimRead e) acc)
    (init, [])

structure SubgraphLocker where
  lockerOwner : String
  id : String
  blockTimestamp : String
deriving Repr, DecidableEq

/-- The GraphQL query string of `getLockers`.  In the source it is built once,
before the loop, so the interpolated `skip` is frozen at its initial value. -/
def lockersQuery (pageSize skip : Nat) : String :=
  "query MyQuery \x7b lockers(first: " ++ toString pageSize ++ ", skip: " ++
    toString skip ++
    ", orderBy: blockTimestamp, orderDirection: desc) \x7b lockerOwner id blockTimestamp \x7d \x7d"

/-- The per-page body of `getLockers` (`for (const locker of lockers)`): keep
the lockers whose owner is one of the requested addresses. -/
def processLockersPage (addresses : List String) :
    List SubgraphLocker → List (String × (String × String)) →
    List (String × (String × String))
  | [], found => found
  | locker :: rest, found =>
    let ownerAddress := toLowerCase locker.lockerOwner
    processLockersPage addresses rest
      (if addresses.any (fun addr => toLowerCase addr = ownerAddress) then
        mapSet found ownerAddress (locker.id, locker.blockTimestamp)
      else found)

/-- The `while (hasMore)` loop of `getLockers`, fuelled: `none` means the loop
is still running after `fuel` iterations.  `query` is the request actually
sent (constant across iterations, as in the source); `skip` is the loop
variable the source increments without using it in the request. -/
def getLockersLoop (subgraph : String → Except String (List SubgraphLocker))
    (addresses : List String) (pageSize : Nat) (query : String) :
    Nat → List (String × (String × String)) → Nat →
    Option (List (String × (String × String)))
  | 0, _, _ => none
  | fuel + 1, found, skip =>
    match subgraph query with
    | .error _ => some found
    | .ok lockers =>
      let found2 := processLockersPage addresses lockers found
      if found2.length = addresses.length ∨ lockers.length < pageSize then
        some found2
      else
        getLockersLoop subgraph addresses pageSize query fuel found2 (skip + pageSize)

/-- `getLockers` (`blockchainService.ts`): bulk locker discovery through the
indexing service, with `pageSize = 1000` and the query built once with
`skip = 0`. -/
def getLockers (subgraph : String → Except String (List SubgraphLocker))
    (addresses : List String) (fuel : Nat) :
    Option (List (String × (String × String))) :=
  getLockersLoop subgraph addresses 1000 (lockersQuery 1000 0) fuel [] 0

/-! ## Eligibility reconciliation engine (`src/services/eligibilityService.ts`) -/

/-- The external world one `checkEligibility` batch interacts with. -/
structure Env where
  allocFetch : Nat → List String → Except String (List StackAllocation)
  nonce : String → Except String Int
  grantHttp : String → Except String Nat
  lockers : Except String (List (String × String))
  chainTotalUnits : String → Int
  claimRead : String → String → Except String Int
  now : Int
  ledger : List UniversalPointRecipient

/-- State threaded through `autoAssignPoints`: the recipient ledger, the
emitted events, and the addresses for which a grant call was fired. -/
structure AutoAssignState where
  ledger : List UniversalPointRecipient
  alerts : List Alert
  granted : List String
deriving Repr, DecidableEq

/-- The allocation record `autoAssignPoints` works with for one address: the
existing community allocation or the synthesized zero-points placeholder. -/
def existingAllocationFor (communityAllocations : List StackAllocation)
    (address : String) (now : Int) : StackAllocation :=
  (communityAllocations.find?
      (fun a => toLowerCase a.accountAddress = toLowerCase address)).getD
    { pointSystemUuid := "28abd1a3-bba1-43af-9033-5059580c1b61",
      accountAddress := address, points := 0, allocation := 0,
      maxCreatedAt := toString now }

/-- The body of `autoAssignPoints` for one address (`eligibilityService.ts`
lines 169-214).  `nonce`, `grantHttp` and `now` are the environment fields the
body consults.  The fixed activity floor is `NONCE_THRESHOLD = 5`. -/
def autoAssignOne (cfg : Config) (nonce : String → Except String Int)
    (grantHttp : String → Except String Nat) (now : Int)
    (communityAllocations : List StackAllocation) (st : AutoAssignState)
    (address : String) : AutoAssignState × StackAllocation :=
  let existingAllocation := existingAllocationFor communityAllocations address now
  let currentPoints := existingAllocation.points
  match nonce address with
  | .error _ =>
    ({ st with alerts := st.alerts ++ [.nonceFailed address] },
     { existingAllocation with points := currentPoints })
  | .ok userNonce =>
    if currentPoints < cfg.POINT_THRESHOLD ∧ 5 < userNonce then
      let recipientsToppedUp :=
        (latestRecipients cfg.THRESHOLD_TIME_PERIOD now st.ledger).length
      if recipientsToppedUp < cfg.THRESHOLD_MAX_USERS then
        let grant := assignPoints address cfg.POINTS_TO_ASSIGN
          "universal_allocation" (grantHttp address) cfg now st.ledger
        ({ ledger := grant.ledger, alerts := st.alerts ++ grant.alerts,
           granted := st.granted ++ [address] },
         { existingAllocation with points := currentPoints + cfg.POINTS_TO_ASSIGN })
      else
        ({ st with alerts := st.alerts ++ [.quotaExceeded address cfg.THRESHOLD_MAX_USERS] },
         { existingAllocation with points := currentPoints })
    else
      (st, { existingAllocation with points := currentPoints })

/-- `autoAssignPoints`: process every address (sequential interleaving model of
the `Promise.all` fan-out), returning the updated community allocation list in
address order. -/
def autoAssignPoints (cfg : Config) (nonce : String → Except String Int)
    (grantHttp : String → Except String Nat) (now : Int)
    (ledger0 : List UniversalPointRecipient)
    (allAllocations : List (Nat × List StackAllocation))
    (addresses : List String) : AutoAssignState × List StackAllocation :=
  let communityAllocations :=
    (mapGet allAllocations cfg.COMMUNITY_ACTIVATION_ID).getD []
  addresses.foldl
    (fun acc address =>
      let next := autoAssignOne cfg nonce grantHttp now communityAllocations
        acc.1 address
      (next.1, acc.2 ++ [next.2]))
    ({ ledger := ledger0, alerts := [], granted := [] }, [])

/-- `const scaleFactor = BigInt(1000000000)`. -/
def scaleFactor : Int := 1000000000

/-- The flow-rate expression of `eligibilityService.ts` line 97:
`(pointsBigInt * scaleFactor / totalUnitsBigInt) * flowrate / scaleFactor`
(TypeScript `bigint` division truncates toward zero). -/
def estimatedFlowRateOf (points totalUnitsBigInt flowrate : Int) : Int :=
  (((points * scaleFactor).tdiv totalUnitsBigInt) * flowrate).tdiv scaleFactor

/-- `allocations.find(a => a?.accountAddress?.toLowerCase() === address.toLowerCase()) || {points: 0}`,
projected to the points. -/
def allocationPointsFor (allocations : List StackAllocation) (address : String) : Int :=
  ((allocations.find?
      (fun a => toLowerCase a.accountAddress = toLowerCase address)).map
    (·.points)).getD 0

/-- The per-`(address, point system)` body of `_checkEligibility`
(lines 77-125): find the allocation, derive the unclaimed delta, compute the
estimated flow rate when the pool has units.  Returns the pushed record and
the `estimatedFlowRateBigInt` accumulated into the total (0 when the pool is
empty, exactly as the skipped branch leaves it).  The `bigint`
division throws on a zero denominator, which is the only `Except.error`. -/
def computePointSystemEligibility (ps : PointSystem)
    (allocations : List StackAllocation) (claimStatuses : List (Nat × Int))
    (address : String) : Except String (PointSystemEligibility × Int) :=
  let points := allocationPointsFor allocations address
  let claimStatus : Option Int := mapGet claimStatuses ps.id
  let amountToClaimBigInt := points - claimStatus.getD 0
  let needToClaim := decide (0 < amountToClaimBigInt)
  let amountToClaim := jsNumber amountToClaimBigInt
  let est : Except String Int :=
    if 0 < ps.totalUnits then
      let totalUnitsBigInt := jsAdd ps.totalUnits amountToClaim
      if totalUnitsBigInt = 0 then Except.error "Division by zero"
      else Except.ok (estimatedFlowRateOf points totalUnitsBigInt ps.flowrate)
    else Except.ok 0
  match est with
  | Except.error e => Except.error e
  | Except.ok estimatedFlowRateBigInt =>
    Except.ok
      ({ pointSystemId := ps.id, pointSystemName := ps.name,
         eligible := decide (0 < points), points,
         claimedAmount := (claimStatus.map jsNumber).getD 0,
         needToClaim, gdaPoolAddress := ps.gdaPoolAddress,
         estimatedFlowRate := toString estimatedFlowRateBigInt },
       estimatedFlowRateBigInt)

/-- The per-address body of `_checkEligibility` (lines 69-137): fold the point
systems in configuration order, accumulating the eligibility list, the two
flags and the total flow rate. -/
def eligibilityForAddress (psList : List PointSystem)
    (allAllocations : List (Nat × List StackAllocation))
    (allClaimStatuses : List (String × List (Nat × Int)))
    (address : String) : Except String AddressEligibility := do
  let folded ← psList.foldlM
    (fun (acc : List PointSystemEligibility × Bool × Bool × Int) ps => do
      let allocations := (mapGet allAllocations ps.id).getD []
      let computed ← computePointSystemEligibility ps allocations
        ((mapGet allClaimStatuses address).getD []) address
      pure (acc.1 ++ [computed.1],
            acc.2.1 || computed.1.needToClaim,
            acc.2.2.1 || decide (0 < computed.1.points),
            acc.2.2.2 + computed.2))
    (([], false, false, 0) : List PointSystemEligibility × Bool × Bool × Int)
  pure { address, hasAllocations := folded.2.2.1, claimNeeded := folded.2.1,
         totalFlowRate := toString folded.2.2.2, eligibility := folded.1 }

/-- Result of one batch: the value or error returned to the caller, the
emitted events, and the recipient ledger after the batch. -/
structure BatchOutcome where
  result : Except String (List AddressEligibility)
  alerts : List Alert
  ledger : List UniversalPointRecipient
deriving Repr

/-- `_checkEligibility` (`eligibilityService.ts` lines 32-141): fetch
allocations, auto-assign, resolve lockers (total failure degrades to an empty
map plus an alert), resolve claim statuses, refresh `totalUnits`, then build
one record per address in input order.  The per-address `refreshed` events are
collected for the success path. -/
def checkEligibilityImpl (cfg : Config) (env : Env) (addresses : List String) :
    BatchOutcome :=
  let fetched := fetchAllAllocations env.allocFetch addresses
  let autoAssigned := autoAssignPoints cfg env.nonce env.grantHttp env.now
    env.ledger fetched.1 addresses
  let allAllocations := mapSet fetched.1 cfg.COMMUNITY_ACTIVATION_ID autoAssigned.2
  let lockerStep :=
    match env.lockers with
    | .ok m => (m, ([] : List Alert))
    | .error _ => ([], [Alert.lockerFetchFailed addresses])
  let claimed := checkAllClaimStatuses env.claimRead lockerStep.1
  let updatedPointSystems := pointSystems.map
    (fun ps => { ps with totalUnits := jsNumber (env.chainTotalUnits ps.gdaPoolAddress) })
  let results := addresses.mapM
    (fun address => eligibilityForAddress updatedPointSystems allAllocations claimed.1 address)
  { result := results,
    alerts := fetched.2 ++ autoAssigned.1.alerts ++ lockerStep.2 ++
      addresses.map Alert.refreshed,
    ledger := autoAssigned.1.ledger }

/-- The fold inside `checkEligibilityMemoized`: each input address produces one
inner `_checkEligibility` call whose addresses parameter is the two-element
array `[address, apiConsumerName]` (the source passes the array as the first
argument), and the per-address results are flattened in input order.  An inner
error rejects the whole `Promise.all`. -/
def memoizedFold (cfg : Config) (env : Env) (apiConsumerName : String) :
    List String → BatchOutcome → BatchOutcome
  | [], acc => acc
  | address :: rest, acc =>
    let inner := checkEligibilityImpl cfg { env with ledger := acc.ledger }
      [address, apiConsumerName]
    let combined :=
      match acc.result, inner.result with
      | .ok soFar, .ok records => Except.ok (soFar ++ records)
      | .error e, _ => Except.error e
      | _, .error e => Except.error e
    memoizedFold cfg env apiConsumerName rest
      { result := combined, alerts := acc.alerts ++ inner.alerts,
        ledger := inner.ledger }

/-- `checkEligibilityMemoized` (lines 146-157), modelled at its first
(cache-miss) call. -/
def checkEligibilityMemoized (cfg : Config) (env : Env) (addresses : List String)
    (apiConsumerName : String) : BatchOutcome :=
  memoizedFold cfg env apiConsumerName addresses
    { result := Except.ok [], alerts := [], ledger := env.ledger }

/-- `checkEligibility` (lines 18-25): delegate, rewrapping any error as
`Failed to check eligibility: ...`. -/
def checkEligibility (cfg : Config) (env : Env) (addresses : List String)
    (apiConsumerName : String) : BatchOutcome :=
  let out := checkEligibilityMemoized cfg env addresses apiConsumerName
  { out with
    result :=
      match out.result with
      | .ok r => Except.ok r
      | .error e => Except.error ("Failed to check eligibility: " ++ e) }

/-! ## The specification-side flow-rate formula

Stated from the spec text, for comparison with the implementation:
`estimatedFlowRate = (points * 10^9 / (totalUnits + (points - claimedAmount))) * flowRate / 10^9`
when `totalUnits > 0`, and `0` when `totalUnits == 0`, in exact
arbitrary-precision integer arithmetic. -/
def specEstimatedFlowRate (points claimedAmount totalUnits flowRate : Int) : Int :=
  if 0 < totalUnits then
    (((points * 1000000000).tdiv (totalUnits + (points - claimedAmount))) *
      flowRate).tdiv 1000000000
  else 0

/-- A benign environment: empty allocations, unreachable nonce RPC, no lockers,
empty pools. -/
def trivialEnv : Env :=
  { allocFetch := fun _ _ => Except.ok []
    nonce := fun _ => Except.error "rpc down"
    grantHttp := fun _ => Except.ok 200
    lockers := Except.ok []
    chainTotalUnits := fun _ => 0
    claimRead := fun _ _ => Except.ok 0
    now := 0
    ledger := [] }

/-- Environment for the zero-denominator scenario: the Community Activations
pool has 100 total units, the address has 50 points there and its locker
reports 150 units already claimed. -/
def divZeroEnv : Env :=
  { trivialEnv with
    allocFetch := fun id _ =>
      if id = 7691 then
        Except.ok [{ pointSystemUuid := "u", accountAddress := "0xaaa",
                     points := 50, maxCreatedAt := "", allocation := 0 }]
      else Except.ok []
    lockers := Except.ok [("0xaaa", "0x1111111111111111111111111111111111111111")]
    claimRead := fun _ _ => Except.ok 150
    chainTotalUnits := fun pool =>
      if pool = "0xB7d7331529dC6fb68CB602d9B738CabD84d3ae6d" then 100 else 0 }

/-- An indexing service holding more than one full page of lockers, none owned
by the requested address: the page-0 query returns a full page owned by
someone else, any other query returns an empty page. -/
def fullFirstPageSubgraph : String → Except String (List SubgraphLocker) :=
  fun q =>
    if q = lockersQuery 1000 0 then
      Except.ok (List.replicate 1000
        { lockerOwner := "0xbbbb", id := "0xlocker1", blockTimestamp := "1" })
    else Except.ok []

/-! ## Map helper lemmas -/

theorem mapGet_nil {α β : Type} [DecidableEq α] (k : α) :
    mapGet ([] : List (α × β)) k = none := rfl

theorem mapGet_cons {α β : Type} [DecidableEq α] (e : α × β)
    (rest : List (α × β)) (k : α) :
    mapGet (e :: rest) k = if e.1 = k then some e.2 else mapGet rest k := by
  by_cases h : e.1 = k <;> simp [mapGet, List.find?_cons, h]

theorem mapGet_mapSet_self {α β : Type} [DecidableEq α]
    (m : List (α × β)) (k : α) (v : β) : mapGet (mapSet m k v) k = some v := by
  induction m with
  | nil => simp [mapSet, mapGet_cons]
  | cons e rest ih =>
    by_cases h : e.1 = k <;> simp [mapSet, h, mapGet_cons, ih]

theorem mapGet_mapSet_ne {α β : Type} [DecidableEq α]
    (m : List (α × β)) (k k' : α) (v : β) (h : k' ≠ k) :
    mapGet (mapSet m k v) k' = mapGet m k' := by
  have hk : ¬(k = k') := fun h2 => h h2.symm
  induction m with
  | nil => simp [mapSet, mapGet_cons, mapGet_nil, hk]
  | cons e rest ih =>
    by_cases he : e.1 = k
    · subst he
      have he2 : ¬(e.1 = k') := hk
      simp [mapSet, mapGet_cons, he2]
    · simp [mapSet, he, mapGet_cons, ih]

/-! ## jsNumber exactness on the 53-bit range -/

theorem jsNumberOfNat_of_le (n : Nat) (h : n ≤ 2 ^ 53) : jsNumberOfNat n = n := by
  unfold jsNumberOfNat
  split
  · rfl
  · have hn : n = 2 ^ 53 := le_antisymm h (le_of_not_lt (by assumption))
    subst hn
    decide

theorem jsNumber_of_natAbs_le (x : Int) (h : x.natAbs ≤ 2 ^ 53) :
    jsNumber x = x := by
  unfold jsNumber
  split
  · rename_i hx
    rw [jsNumberOfNat_of_le _ (by omega)]
    omega
  · rename_i hx
    rw [jsNumberOfNat_of_le _ (by omega)]
    omega

theorem jsAdd_of_natAbs_le (a b : Int) (h : (a + b).natAbs ≤ 2 ^ 53) :
    jsAdd a b = a + b := jsNumber_of_natAbs_le _ h

/-! ## Claim C1 -/

/-- C1 (amended): when `totalUnits == 0` the estimate is `"0"`; when
`totalUnits > 0`, provided the unclaimed delta `points - claimedAmount` and the
denominator `totalUnits + (points - claimedAmount)` are within the exactly
representable double range (at most `2 ^ 53` in absolute value, so that the
source conversion of the delta through a JS number is lossless) and the
denominator is nonzero, the computed `estimatedFlowRate` is the decimal string
of the exact integer `(points * 10^9 / (totalUnits + (points - claimedAmount))) * flowRate / 10^9`;
in particular points = 500, totalUnits = 10000, claimedAmount = 0 and
flowRate = 1607510288065843368 give exactly that formula value. -/
theorem estimatedFlowRate_formula (ps : PointSystem)
    (allocations : List StackAllocation) (claimStatuses : List (Nat × Int))
    (address : String) (points c : Int)
    (hp : allocationPointsFor allocations address = points)
    (hc : (mapGet claimStatuses ps.id).getD 0 = c)
    (hdelta : (points - c).natAbs ≤ 2 ^ 53)
    (hdenom : (ps.totalUnits + (points - c)).natAbs ≤ 2 ^ 53) :
    (ps.totalUnits = 0 →
      (computePointSystemEligibility ps allocations claimStatuses address).map
        (fun r => r.1.estimatedFlowRate) = Except.ok "0") ∧
    (0 < ps.totalUnits → ps.totalUnits + (points - c) ≠ 0 →
      (computePointSystemEligibility ps allocations claimStatuses address).map
        (fun r => r.1.estimatedFlowRate) =
      Except.ok (toString
        (specEstimatedFlowRate points c ps.totalUnits ps.flowrate))) := by
  constructor
  · intro h0
    simp [computePointSystemEligibility, hp, hc, h0, Except.map]
    decide
  · intro hpos hne
    have hjs : jsNumber (points - c) = points - c :=
      jsNumber_of_natAbs_le _ hdelta
    have hadd : jsAdd ps.totalUnits (points - c) = ps.totalUnits + (points - c) :=
      jsAdd_of_natAbs_le _ _ hdenom
    simp [computePointSystemEligibility, hp, hc, hjs, hadd, hpos, hne,
      specEstimatedFlowRate, estimatedFlowRateOf, scaleFactor, Except.map]

/-- C1 witness: the hypotheses and both branches of
`estimatedFlowRate_formula` at the spec instance points = 500,
totalUnits = 10000, flowRate = 1607510288065843368, claimedAmount = 0. -/
theorem estimatedFlowRate_formula_witness :
    (allocationPointsFor
        [{ pointSystemUuid := "u", accountAddress := "0xAAA", points := 500,
           maxCreatedAt := "", allocation := 0 }] "0xaaa" = 500 ∧
      ((10000 : Int) + (500 - 0)) ≠ 0) ∧
    ((computePointSystemEligibility
        { id := 7691, name := "Community Activations",
          gdaPoolAddress := "0xB7d7331529dC6fb68CB602d9B738CabD84d3ae6d",
          flowrate := 1607510288065843368, totalUnits := 10000, apiKey := "" }
        [{ pointSystemUuid := "u", accountAddress := "0xAAA", points := 500,
           maxCreatedAt := "", allocation := 0 }] [] "0xaaa").map
      (fun r => r.1.estimatedFlowRate) =
      Except.ok (toString (specEstimatedFlowRate 500 0 10000 1607510288065843368))) :=
  ⟨⟨by decide, by decide⟩,
    (estimatedFlowRate_formula
      { id := 7691, name := "Community Activations",
        gdaPoolAddress := "0xB7d7331529dC6fb68CB602d9B738CabD84d3ae6d",
        flowrate := 1607510288065843368, totalUnits := 10000, apiKey := "" }
      [{ pointSystemUuid := "u", accountAddress := "0xAAA", points := 500,
         maxCreatedAt := "", allocation := 0 }] [] "0xaaa" 500 0
      (by decide) (by decide) (by decide) (by decide)).2 (by decide) (by decide)⟩

/-- C1 counterexample: with points = 2, claimedAmount = 2^54 - 1 and
totalUnits = 2^54 + 4 (all type-valid inputs), the source converts the
unclaimed delta through a JS number, which rounds -(2^54 - 3) to -(2^54 - 4),
so the computed denominator is 8 instead of the exact 7 and the produced
estimate differs from the claimed exact formula value. -/
theorem estimatedFlowRate_formula_counterexample :
    (computePointSystemEligibility
        { id := 7691, name := "Community Activations",
          gdaPoolAddress := "0xB7d7331529dC6fb68CB602d9B738CabD84d3ae6d",
          flowrate := 1607510288065843368, totalUnits := 2 ^ 54 + 4, apiKey := "" }
        [{ pointSystemUuid := "u", accountAddress := "0xAAA", points := 2,
           maxCreatedAt := "", allocation := 0 }]
        [(7691, 2 ^ 54 - 1)] "0xaaa").map (fun r => r.1.estimatedFlowRate) =
      Except.ok "401877572016460842" ∧
    toString (specEstimatedFlowRate 2 (2 ^ 54 - 1) (2 ^ 54 + 4) 1607510288065843368) =
      "459288652584876470" ∧
    (computePointSystemEligibility
        { id := 7691, name := "Community Activations",
          gdaPoolAddress := "0xB7d7331529dC6fb68CB602d9B738CabD84d3ae6d",
          flowrate := 1607510288065843368, totalUnits := 2 ^ 54 + 4, apiKey := "" }
        [{ pointSystemUuid := "u", accountAddress := "0xAAA", points := 2,
           maxCreatedAt := "", allocation := 0 }]
        [(7691, 2 ^ 54 - 1)] "0xaaa").map (fun r => r.1.estimatedFlowRate) ≠
      Except.ok (toString
        (specEstimatedFlowRate 2 (2 ^ 54 - 1) (2 ^ 54 + 4) 1607510288065843368)) := by
  refine ⟨by decide, by decide, ?_⟩
  decide

/-! ## Claim C4 -/

/-- C4 (amended): `estimatedFlowRate` is the decimal-string rendering of the
exact big-integer estimate, but `claimedAmount` is a native number: it equals
the on-chain claim status only when that status is within the exactly
representable double range (at most `2 ^ 53`). -/
theorem bigint_fields_serialization (ps : PointSystem)
    (allocations : List StackAllocation) (claimStatuses : List (Nat × Int))
    (address : String) (c : Int) (r : PointSystemEligibility) (est : Int)
    (hc : mapGet claimStatuses ps.id = some c)
    (hbound : c.natAbs ≤ 2 ^ 53)
    (hok : computePointSystemEligibility ps allocations claimStatuses address =
      Except.ok (r, est)) :
    r.claimedAmount = c ∧ r.estimatedFlowRate = toString est := by
  have hjs : jsNumber c = c := jsNumber_of_natAbs_le _ hbound
  simp only [computePointSystemEligibility, hc] at hok
  split at hok
  · exact absurd hok (by simp)
  · rw [Except.ok.injEq, Prod.mk.injEq] at hok
    rw [← hok.1, ← hok.2]
    simp [hjs]

/-- C4 witness: `bigint_fields_serialization` applied at a concrete record with
claim status 5. -/
theorem bigint_fields_serialization_witness :
    (mapGet [((1 : Nat), (5 : Int))] 1 = some 5 ∧
      computePointSystemEligibility
        { id := 1, name := "x", gdaPoolAddress := "p", flowrate := 7,
          totalUnits := 0, apiKey := "" } [] [(1, 5)] "0xaaa" =
      Except.ok
        ({ pointSystemId := 1, pointSystemName := "x", eligible := false,
           points := 0, claimedAmount := 5, needToClaim := false,
           gdaPoolAddress := "p", estimatedFlowRate := "0" }, 0)) ∧
    ({ pointSystemId := 1, pointSystemName := "x", eligible := false,
       points := 0, claimedAmount := 5, needToClaim := false,
       gdaPoolAddress := "p",
       estimatedFlowRate := "0" } : PointSystemEligibility).claimedAmount = 5 ∧
    ({ pointSystemId := 1, pointSystemName := "x", eligible := false,
       points := 0, claimedAmount := 5, needToClaim := false,
       gdaPoolAddress := "p",
       estimatedFlowRate := "0" } : PointSystemEligibility).estimatedFlowRate =
      toString (0 : Int) :=
  ⟨⟨by decide, by decide⟩,
    bigint_fields_serialization
      { id := 1, name := "x", gdaPoolAddress := "p", flowrate := 7,
        totalUnits := 0, apiKey := "" } [] [(1, 5)] "0xaaa" 5
      { pointSystemId := 1, pointSystemName := "x", eligible := false,
        points := 0, claimedAmount := 5, needToClaim := false,
        gdaPoolAddress := "p", estimatedFlowRate := "0" } 0
      (by decide) (by decide) (by decide)⟩

/-- C4 counterexample: a claim status of 2^53 + 1 units comes back as the
native number 2^53 in the returned `claimedAmount` field: the large-integer
field is not serialized as a decimal string of the exact value. -/
theorem claimedAmount_native_number_counterexample :
    (computePointSystemEligibility
        { id := 1, name := "x", gdaPoolAddress := "p", flowrate := 7,
          totalUnits := 0, apiKey := "" } [] [(1, 2 ^ 53 + 1)] "0xaaa").map
      (fun r => r.1.claimedAmount) = Except.ok (9007199254740992 : Int) ∧
    (9007199254740992 : Int) ≠ 2 ^ 53 + 1 := by decide

/-! ## Claim C10 -/

/-- C10: the `totalUnits > 0` guard does not keep the flow-rate denominator
nonzero: with totalUnits = 100, points = 50 and a claimed amount of
150 = points + totalUnits, the denominator `totalUnits + (points - claimedAmount)`
is zero, the big-integer division raises, and `checkEligibility` fails the
whole batch with an error instead of returning per-item results. -/
theorem zero_denominator_fails_batch :
    (150 : Int) = 50 + 100 ∧
    jsAdd 100 (jsNumber ((50 : Int) - 150)) = 0 ∧
    (checkEligibility defaultConfig divZeroEnv ["0xaaa"] "consumer").result =
      Except.error "Failed to check eligibility: Division by zero" := by decide

/-! ## Claim C2 -/

/-- C2 (refuted by the code): `checkEligibilityMemoized` passes the two-element
array `[address, apiConsumerName]` as the addresses parameter of
`_checkEligibility`, so a batch with the single address 0xaaa and caller label
"consumer" returns two records, one for the address and one for the caller
label, not exactly one record per input address. -/
theorem checkEligibility_duplicates_caller_label :
    (checkEligibility defaultConfig trivialEnv ["0xaaa"] "consumer").result.map
      (fun l => l.map (·.address)) = Except.ok ["0xaaa", "consumer"] ∧
    (Except.ok ["0xaaa", "consumer"] : Except String (List String)) ≠
      Except.ok ["0xaaa"] := by decide

/-! ## Claim C6 -/

/-- C6: the auto-assignment bonus uses strict comparisons: an address whose
current points equal POINT_THRESHOLD exactly is not granted, and an address
whose on-chain nonce is exactly 5 (the activity floor) is not granted; in both
cases the state (ledger, alerts, grants) and the allocation are unchanged. -/
theorem autoAssign_strict_thresholds (cfg : Config)
    (nonce : String → Except String Int)
    (grantHttp : String → Except String Nat) (now : Int)
    (communityAllocations : List StackAllocation) (st : AutoAssignState)
    (address : String) (n : Int)
    (hn : nonce address = Except.ok n) :
    ((existingAllocationFor communityAllocations address now).points =
        cfg.POINT_THRESHOLD →
      autoAssignOne cfg nonce grantHttp now communityAllocations st address =
        (st, existingAllocationFor communityAllocations address now)) ∧
    (n = 5 →
      autoAssignOne cfg nonce grantHttp now communityAllocations st address =
        (st, existingAllocationFor communityAllocations address now)) := by
  constructor
  · intro hpt
    have hcond : ¬((existingAllocationFor communityAllocations address now).points <
        cfg.POINT_THRESHOLD ∧ 5 < n) := by
      rw [hpt]
      exact fun h => lt_irrefl _ h.1
    simp [autoAssignOne, hn, hcond]
  · intro h5
    subst h5
    simp [autoAssignOne, hn]

/-- C6 witness: with the default threshold 99, an address holding exactly 99
points and nonce exactly 5 is left ungranted with nothing changed. -/
theorem autoAssign_strict_thresholds_witness :
    ((fun _ : String => Except.ok (ε := String) (5 : Int)) "0xaaa" =
        Except.ok 5 ∧
      (existingAllocationFor
          [{ pointSystemUuid := "u", accountAddress := "0xaaa", points := 99,
             maxCreatedAt := "", allocation := 0 }] "0xaaa" 0).points =
        defaultConfig.POINT_THRESHOLD) ∧
    autoAssignOne defaultConfig (fun _ => Except.ok 5) (fun _ => Except.ok 200) 0
        [{ pointSystemUuid := "u", accountAddress := "0xaaa", points := 99,
           maxCreatedAt := "", allocation := 0 }]
        { ledger := [], alerts := [], granted := [] } "0xaaa" =
      ({ ledger := [], alerts := [], granted := [] },
       existingAllocationFor
         [{ pointSystemUuid := "u", accountAddress := "0xaaa", points := 99,
            maxCreatedAt := "", allocation := 0 }] "0xaaa" 0) :=
  ⟨⟨by decide, by decide⟩,
    (autoAssign_strict_thresholds defaultConfig (fun _ => Except.ok 5)
      (fun _ => Except.ok 200) 0
      [{ pointSystemUuid := "u", accountAddress := "0xaaa", points := 99,
         maxCreatedAt := "", allocation := 0 }]
      { ledger := [], alerts := [], granted := [] } "0xaaa" 5
      (by decide)).2 rfl⟩

/-! ## Claim C9 -/

/-- Pages whose rows are all owned by a non-requested address add nothing. -/
theorem processLockersPage_no_match (addresses : List String)
    (lockers : List SubgraphLocker)
    (h : ∀ l ∈ lockers, ∀ a ∈ addresses,
      toLowerCase a ≠ toLowerCase l.lockerOwner) :
    ∀ found, processLockersPage addresses lockers found = found := by
  induction lockers with
  | nil => intro found; rfl
  | cons l rest ih =>
    intro found
    have hany : (addresses.any
        (fun addr => toLowerCase addr = toLowerCase l.lockerOwner)) = false := by
      rw [List.any_eq_false]
      intro a ha
      simpa using h l (List.mem_cons_self l rest) a ha
    rw [processLockersPage, hany]
    exact ih (fun l2 hl2 a ha => h l2 (List.mem_cons_of_mem _ hl2) a ha) found

/-- Against `fullFirstPageSubgraph`, the loop never completes: the fetched
page is always the full page 0 (the request string is fixed), no requested
address is ever resolved, and the page is never short. -/
theorem getLockersLoop_full_page_stuck :
    ∀ fuel skip,
      getLockersLoop fullFirstPageSubgraph ["0xaaaa"] 1000
        (lockersQuery 1000 0) fuel [] skip = none := by
  intro fuel
  induction fuel with
  | zero => intro skip; rfl
  | succ fuel ih =>
    intro skip
    have hsub : fullFirstPageSubgraph (lockersQuery 1000 0) =
        Except.ok (List.replicate 1000
          { lockerOwner := "0xbbbb", id := "0xlocker1", blockTimestamp := "1" }) := by
      unfold fullFirstPageSubgraph
      rw [if_pos rfl]
    have hpage : processLockersPage ["0xaaaa"]
        (List.replicate 1000
          { lockerOwner := "0xbbbb", id := "0xlocker1", blockTimestamp := "1" })
        [] = [] := by
      refine processLockersPage_no_match _ _ ?_ []
      intro l hl a ha
      have hl2 := List.eq_of_mem_replicate hl
      subst hl2
      have ha2 : a = "0xaaaa" := by simpa using ha
      subst ha2
      decide
    simp only [getLockersLoop, hsub, hpage, List.length_replicate,
      List.length_cons, List.length_nil]
    rw [if_neg (by decide)]
    exact ih (skip + 1000)

/-- C9 (refuted by the code): `getLockers` builds its query string once, with
`skip` frozen at 0, before the loop; `skip += pageSize` never reaches the
request, so the loop refetches page 0 forever.  Against an indexing service
whose page 0 is full (1000 rows) with none of the requested addresses and
whose later pages are empty, the loop never terminates for any amount of fuel,
although a pagination that advanced (requesting `lockersQuery 1000 1000`, ...)
would get an empty page and stop. -/
theorem getLockers_never_advances_pages :
    (∀ fuel, getLockers fullFirstPageSubgraph ["0xaaaa"] fuel = none) ∧
    fullFirstPageSubgraph (lockersQuery 1000 1000) = Except.ok [] := by
  constructor
  · intro fuel
    exact getLockersLoop_full_page_stuck fuel 0
  · decide

/-! ## Claim C8 -/

theorem countFor_cons (r : UniversalPointRecipient)
    (L : List UniversalPointRecipient) (a : String) :
    countFor (r :: L) a =
      if toLowerCase r.address = toLowerCase a then countFor L a + 1
      else countFor L a := by
  by_cases h : toLowerCase r.address = toLowerCase a <;>
    simp [countFor, List.filter_cons, h]

theorem countFor_append_singleton (L : List UniversalPointRecipient)
    (r : UniversalPointRecipient) (a : String) :
    countFor (L ++ [r]) a =
      countFor L a +
        (if toLowerCase r.address = toLowerCase a then 1 else 0) := by
  by_cases h : toLowerCase r.address = toLowerCase a <;>
    simp [countFor, List.filter_append, List.filter_cons, h]

theorem countFor_eq_zero_of_absent (L : List UniversalPointRecipient)
    (a : String) (h : ∀ r ∈ L, toLowerCase r.address ≠ toLowerCase a) :
    countFor L a = 0 := by
  unfold countFor
  rw [List.length_eq_zero, List.filter_eq_nil_iff]
  intro r hr
  simpa using h r hr

theorem replaceFirstMatch_none (a : String)
    (f : UniversalPointRecipient → UniversalPointRecipient) :
    ∀ L, replaceFirstMatch a f L = none ↔
      ∀ r ∈ L, toLowerCase r.address ≠ toLowerCase a := by
  intro L
  induction L with
  | nil => simp [replaceFirstMatch]
  | cons r rest ih =>
    by_cases h : toLowerCase r.address = toLowerCase a
    · rw [replaceFirstMatch, if_pos h]
      constructor
      · intro hc; cases hc
      · intro hall; exact absurd h (hall r (List.mem_cons_self _ _))
    · rw [replaceFirstMatch, if_neg h, Option.map_eq_none', ih]
      constructor
      · intro hrest r2 hr2
        rcases List.mem_cons.mp hr2 with heq | hm
        · subst heq; exact h
        · exact hrest r2 hm
      · intro hall r2 h2
        exact hall r2 (List.mem_cons_of_mem _ h2)

/-- Replacing the first case-insensitive match with a record of the same
(lowercased) address preserves lengths, per-address counts, and the first
match itself. -/
theorem replaceFirstMatch_some_spec (a : String)
    (f : UniversalPointRecipient → UniversalPointRecipient)
    (hf : ∀ r : UniversalPointRecipient,
      toLowerCase r.address = toLowerCase a →
      toLowerCase (f r).address = toLowerCase r.address) :
    ∀ L L', replaceFirstMatch a f L = some L' →
      L'.length = L.length ∧
      (∀ k, countFor L' k = countFor L k) ∧
      (∀ r, getRecipient a L = some r → getRecipient a L' = some (f r)) := by
  intro L
  induction L with
  | nil => intro L' hc; cases hc
  | cons r rest ih =>
    intro L' hc
    by_cases h : toLowerCase r.address = toLowerCase a
    · rw [replaceFirstMatch, if_pos h, Option.some.injEq] at hc
      subst hc
      refine ⟨by simp, ?_, ?_⟩
      · intro k
        rw [countFor_cons, countFor_cons, hf r h]
      · intro r2 hr2
        unfold getRecipient at hr2 ⊢
        rw [List.find?_cons_of_pos _ (by simpa using h)] at hr2
        rw [Option.some.injEq] at hr2
        subst hr2
        rw [List.find?_cons_of_pos _ (by simpa using (hf r h).trans h)]
    · rw [replaceFirstMatch, if_neg h] at hc
      cases hrm : replaceFirstMatch a f rest with
      | none => rw [hrm] at hc; cases hc
      | some rest' =>
        rw [hrm, Option.map_some', Option.some.injEq] at hc
        subst hc
        obtain ⟨hlen, hcnt, hget⟩ := ih rest' hrm
        refine ⟨by simp [hlen], ?_, ?_⟩
        · intro k
          rw [countFor_cons, countFor_cons, hcnt k]
        · intro r2 hr2
          unfold getRecipient at hr2 ⊢
          rw [List.find?_cons_of_neg _ (by simpa using h)] at hr2
          rw [List.find?_cons_of_neg _ (by simpa using h)]
          exact hget r2 hr2

/-- The merge function of `addRecipient` keeps the merge key as the address. -/
theorem addRecipient_merge_keeps_class (p : RecipientPatch) (now : Int)
    (a : String) (hpa : p.address = some a) :
    ∀ r : UniversalPointRecipient, toLowerCase r.address = toLowerCase a →
      toLowerCase ({ mergeRecipient r p with topUpDate := now } :
        UniversalPointRecipient).address = toLowerCase r.address := by
  intro r hr
  show toLowerCase (p.address.getD r.address) = toLowerCase r.address
  rw [hpa, Option.getD_some, hr]

/-- `addRecipient` on an already-present address: merge (refreshing
`topUpDate`) without growing the ledger. -/
theorem addRecipient_present (p : RecipientPatch) (now : Int) (a : String)
    (L : List UniversalPointRecipient) (r : UniversalPointRecipient)
    (hpa : p.address = some a) (hr : getRecipient a L = some r) :
    (addRecipient p now L).2.length = L.length ∧
    getRecipient a (addRecipient p now L).2 =
      some { mergeRecipient r p with topUpDate := now } := by
  simp only [addRecipient, hpa]
  cases hrm : replaceFirstMatch a
      (fun r => { mergeRecipient r p with topUpDate := now }) L with
  | none =>
    have hmem := List.mem_of_find?_eq_some hr
    have hmatch : toLowerCase r.address = toLowerCase a := by
      simpa using List.find?_some hr
    exact absurd hmatch ((replaceFirstMatch_none a _ L).mp hrm r hmem)
  | some L' =>
    simp only [hrm]
    obtain ⟨hlen, _, hget⟩ := replaceFirstMatch_some_spec a _
      (addRecipient_merge_keeps_class p now a hpa) L L' hrm
    exact ⟨hlen, hget r hr⟩

/-- `updateRecipient` on an absent address reports failure and changes
nothing. -/
theorem updateRecipient_absent (a : String) (p : RecipientPatch)
    (L : List UniversalPointRecipient)
    (h : ∀ r ∈ L, toLowerCase r.address ≠ toLowerCase a) :
    updateRecipient a p L = (false, L) := by
  unfold updateRecipient
  rw [(replaceFirstMatch_none a _ L).mpr h]

/-- `addRecipient` preserves the at-most-one-record-per-address invariant. -/
theorem addRecipient_invariant (p : RecipientPatch) (now : Int)
    (L : List UniversalPointRecipient) (hinv : AtMostOnePerAddress L) :
    AtMostOnePerAddress (addRecipient p now L).2 := by
  cases hpa : p.address with
  | none => simp only [addRecipient, hpa]; exact hinv
  | some a =>
    simp only [addRecipient, hpa]
    cases hrm : replaceFirstMatch a
        (fun r => { mergeRecipient r p with topUpDate := now }) L with
    | none =>
      simp only [hrm]
      intro k
      rw [countFor_append_singleton]
      have haddr : (mergeRecipient { address := a, topUpDate := now } p :
          UniversalPointRecipient).address = a := by
        show p.address.getD a = a
        rw [hpa, Option.getD_some]
      by_cases hk : toLowerCase (mergeRecipient
          { address := a, topUpDate := now } p :
          UniversalPointRecipient).address = toLowerCase k
      · rw [if_pos hk]
        have hka : toLowerCase a = toLowerCase k := by
          rw [← hk, haddr]
        have hzero : countFor L k = 0 := by
          apply countFor_eq_zero_of_absent
          intro r hrL
          rw [← hka]
          exact (replaceFirstMatch_none a _ L).mp hrm r hrL
        rw [hzero]
      · rw [if_neg hk, Nat.add_zero]
        exact hinv k
    | some L' =>
      simp only [hrm]
      intro k
      rw [(replaceFirstMatch_some_spec a _
        (addRecipient_merge_keeps_class p now a hpa) L L' hrm).2.1 k]
      exact hinv k

/-- `updateRecipient` with a patch that does not rewrite the address preserves
the invariant. -/
theorem updateRecipient_invariant (a : String) (p : RecipientPatch)
    (L : List UniversalPointRecipient) (hpa : p.address = none)
    (hinv : AtMostOnePerAddress L) :
    AtMostOnePerAddress (updateRecipient a p L).2 := by
  have hf : ∀ r : UniversalPointRecipient,
      toLowerCase r.address = toLowerCase a →
      toLowerCase (mergeRecipient r p).address = toLowerCase r.address := by
    intro r _
    show toLowerCase (p.address.getD r.address) = toLowerCase r.address
    rw [hpa, Option.getD_none]
  simp only [updateRecipient]
  cases hrm : replaceFirstMatch a (fun r => mergeRecipient r p) L with
  | none => simp only [hrm]; exact hinv
  | some L' =>
    simp only [hrm]
    intro k
    rw [(replaceFirstMatch_some_spec a _ hf L L' hrm).2.1 k]
    exact hinv k

/-- Under the invariant, a grant leaves exactly one ledger record for the
granted address. -/
theorem addRecipient_countOne (a : String) (now : Int)
    (L : List UniversalPointRecipient) (hinv : AtMostOnePerAddress L) :
    countFor (addRecipient { address := some a } now L).2 a = 1 := by
  simp only [addRecipient]
  cases hrm : replaceFirstMatch a
      (fun r => { mergeRecipient r { address := some a } with
        topUpDate := now }) L with
  | none =>
    simp only [hrm]
    rw [countFor_append_singleton,
      countFor_eq_zero_of_absent L a ((replaceFirstMatch_none a _ L).mp hrm)]
    have hc : toLowerCase (mergeRecipient { address := a, topUpDate := now }
        { address := some a } : UniversalPointRecipient).address =
        toLowerCase a := rfl
    rw [if_pos hc]
  | some L' =>
    simp only [hrm]
    have hspec := replaceFirstMatch_some_spec a _
      (addRecipient_merge_keeps_class { address := some a } now a rfl) L L' hrm
    rw [hspec.2.1 a]
    have hpos : 0 < countFor L a := by
      by_contra hz
      have hz2 : countFor L a = 0 := Nat.eq_zero_of_not_pos hz
      have hnone : ∀ r ∈ L, toLowerCase r.address ≠ toLowerCase a := by
        intro r hrL hcontra
        have hmem2 : r ∈ L.filter
            (fun r => toLowerCase r.address = toLowerCase a) :=
          List.mem_filter.mpr ⟨hrL, by simpa using hcontra⟩
        rw [List.length_eq_zero.mp hz2] at hmem2
        cases hmem2
      rw [(replaceFirstMatch_none a _ L).mpr hnone] at hrm
      cases hrm
    exact le_antisymm (hinv a) hpos

/-- The posted `uniqueId` of a grant depends only on the event name and the
address. -/
theorem assignPoints_uniqueId (address : String) (pts : Int)
    (eventName : String) (http : Except String Nat) (cfg : Config) (now : Int)
    (L : List UniversalPointRecipient) :
    (assignPoints address pts eventName http cfg now L).uniqueId =
      assignPointsUniqueId eventName address := by
  cases http with
  | error e => rfl
  | ok s =>
    by_cases hs : 200 ≤ s ∧ s < 300
    · by_cases he : eventName = "universal_allocation"
      · simp only [assignPoints, if_pos hs, if_pos he]
      · simp only [assignPoints, if_pos hs, if_neg he]
    · simp only [assignPoints, if_neg hs]

/-- C8 counterexample: the ledger invariant does not hold under every
operation: updating an existing address with a patch whose `address` field
names another present address produces two records for that address. -/
theorem ledger_invariant_counterexample :
    AtMostOnePerAddress
      [{ address := "0xaa", topUpDate := 0 },
       { address := "0xbb", topUpDate := 0 }] ∧
    countFor (updateRecipient "0xaa" { address := some "0xbb" }
      [{ address := "0xaa", topUpDate := 0 },
       { address := "0xbb", topUpDate := 0 }]).2 "0xbb" = 2 := by
  constructor
  · intro a
    by_cases h1 : toLowerCase "0xaa" = toLowerCase a <;>
      by_cases h2 : toLowerCase "0xbb" = toLowerCase a
    · exact absurd (h1.trans h2.symm) (by decide)
    all_goals simp [countFor, List.filter_cons, h1, h2]
  · decide

/-- C8 (amended): the grant `uniqueId` is a deterministic function of
`(eventLabel, address)` alone; `addRecipient` on a present address merges the
patch into the existing record, refreshes `topUpDate`, and does not grow the
ledger; `updateRecipient` on an absent address returns false and leaves the
ledger unchanged; the at-most-one-record-per-address invariant is preserved by
`addRecipient` always and by `updateRecipient` whenever the patch does not
rewrite the `address` field; and repeated grants for one address leave exactly
one ledger record for it. -/
theorem ledger_idempotence :
    (∀ (eventName address : String) (p1 p2 : Int)
      (h1 h2 : Except String Nat) (c1 c2 : Config) (t1 t2 : Int)
      (l1 l2 : List UniversalPointRecipient),
      (assignPoints address p1 eventName h1 c1 t1 l1).uniqueId =
        (assignPoints address p2 eventName h2 c2 t2 l2).uniqueId) ∧
    (∀ (a : String) (p : RecipientPatch) (now : Int)
      (L : List UniversalPointRecipient) (r : UniversalPointRecipient),
      p.address = some a → getRecipient a L = some r →
      (addRecipient p now L).2.length = L.length ∧
      getRecipient a (addRecipient p now L).2 =
        some { mergeRecipient r p with topUpDate := now }) ∧
    (∀ (a : String) (p : RecipientPatch) (L : List UniversalPointRecipient),
      (∀ r ∈ L, toLowerCase r.address ≠ toLowerCase a) →
      updateRecipient a p L = (false, L)) ∧
    (∀ (p : RecipientPatch) (now : Int) (L : List UniversalPointRecipient),
      AtMostOnePerAddress L → AtMostOnePerAddress (addRecipient p now L).2) ∧
    (∀ (a : String) (p : RecipientPatch) (L : List UniversalPointRecipient),
      p.address = none → AtMostOnePerAddress L →
      AtMostOnePerAddress (updateRecipient a p L).2) ∧
    (∀ (a : String) (t1 t2 : Int) (L : List UniversalPointRecipient),
      AtMostOnePerAddress L →
      countFor (addRecipient { address := some a } t2
        (addRecipient { address := some a } t1 L).2).2 a = 1) :=
  ⟨fun en addr p1 p2 h1 h2 c1 c2 t1 t2 l1 l2 => by
      rw [assignPoints_uniqueId, assignPoints_uniqueId],
    fun a p now L r hpa hr => addRecipient_present p now a L r hpa hr,
    fun a p L h => updateRecipient_absent a p L h,
    fun p now L hinv => addRecipient_invariant p now L hinv,
    fun a p L hpa hinv => updateRecipient_invariant a p L hpa hinv,
    fun a t1 t2 L hinv =>
      addRecipient_countOne a t2 _ (addRecipient_invariant _ t1 L hinv)⟩

/-- C8 witness: granting the same address twice leaves one ledger record. -/
theorem ledger_idempotence_witness :
    countFor (addRecipient { address := some "0xab" } 5
      (addRecipient { address := some "0xab" } 3 []).2).2 "0xab" = 1 :=
  (ledger_idempotence).2.2.2.2.2 "0xab" 3 5 [] (fun _ => Nat.zero_le 1)

/-! ## Claim C5 -/

/-- C5: best-effort quota enforcement.  First, the general mechanism: for any
qualifying address (existing points under the threshold, nonce strictly above
the activity floor), the auto-assignment consults the count of ledger records
whose topUpDate lies within the window; when the count has reached
THRESHOLD_MAX_USERS the address is skipped with a quota alert and nothing is
recorded, and when it is below the bound and the grant call succeeds the
recipient is recorded in the ledger.  Second, the concrete scenario: with
THRESHOLD_MAX_USERS = 2, a 3600-second window, and three qualifying addresses
submitted sequentially in one process, exactly the first two are granted (and
recorded) and the third is skipped with the quota alert. -/
theorem quota_enforcement_sequential :
    (∀ (cfg : Config) (nonce : String → Except String Int)
      (grantHttp : String → Except String Nat) (now : Int)
      (comm : List StackAllocation) (st : AutoAssignState) (a : String)
      (n : Int), nonce a = Except.ok n →
      (existingAllocationFor comm a now).points < cfg.POINT_THRESHOLD →
      5 < n →
      (¬(latestRecipients cfg.THRESHOLD_TIME_PERIOD now st.ledger).length <
          cfg.THRESHOLD_MAX_USERS →
        autoAssignOne cfg nonce grantHttp now comm st a =
          ({ st with alerts :=
              st.alerts ++ [Alert.quotaExceeded a cfg.THRESHOLD_MAX_USERS] },
           existingAllocationFor comm a now)) ∧
      ((latestRecipients cfg.THRESHOLD_TIME_PERIOD now st.ledger).length <
          cfg.THRESHOLD_MAX_USERS →
        grantHttp a = Except.ok 200 →
        (autoAssignOne cfg nonce grantHttp now comm st a).1.ledger =
          (addRecipient { address := some a } now st.ledger).2 ∧
        (autoAssignOne cfg nonce grantHttp now comm st a).1.granted =
          st.granted ++ [a] ∧
        (autoAssignOne cfg nonce grantHttp now comm st a).2.points =
          (existingAllocationFor comm a now).points + cfg.POINTS_TO_ASSIGN)) ∧
    ((autoAssignPoints { defaultConfig with THRESHOLD_MAX_USERS := 2 }
        (fun _ => Except.ok 6) (fun _ => Except.ok 200) 0 [] []
        ["0xa1", "0xa2", "0xa3"]).1.granted = ["0xa1", "0xa2"] ∧
      Alert.quotaExceeded "0xa3" 2 ∈
        (autoAssignPoints { defaultConfig with THRESHOLD_MAX_USERS := 2 }
          (fun _ => Except.ok 6) (fun _ => Except.ok 200) 0 [] []
          ["0xa1", "0xa2", "0xa3"]).1.alerts ∧
      (autoAssignPoints { defaultConfig with THRESHOLD_MAX_USERS := 2 }
        (fun _ => Except.ok 6) (fun _ => Except.ok 200) 0 [] []
        ["0xa1", "0xa2", "0xa3"]).1.ledger.map (·.address) =
        ["0xa1", "0xa2"]) := by
  constructor
  · intro cfg nonce grantHttp now comm st a n hn hpts hfloor
    constructor
    · intro hquota
      simp [autoAssignOne, hn, hpts, hfloor, hquota]
    · intro hquota hg
      simp [autoAssignOne, hn, hpts, hfloor, hquota, assignPoints, hg]
  · refine ⟨by decide, by decide, by decide⟩

/-- C5 witness: the quota-exceeded branch of `quota_enforcement_sequential`
applied to a saturated ledger (two fresh records, max two users). -/
theorem quota_enforcement_sequential_witness :
    ((fun _ : String => Except.ok (ε := String) (6 : Int)) "0xa3" =
        Except.ok 6 ∧
      (existingAllocationFor [] "0xa3" 0).points <
        ({ defaultConfig with THRESHOLD_MAX_USERS := 2 } : Config).POINT_THRESHOLD ∧
      (5 : Int) < 6 ∧
      ¬(latestRecipients
          ({ defaultConfig with THRESHOLD_MAX_USERS := 2 } : Config).THRESHOLD_TIME_PERIOD 0
          [{ address := "0xa1", topUpDate := 0 },
           { address := "0xa2", topUpDate := 0 }]).length <
        ({ defaultConfig with THRESHOLD_MAX_USERS := 2 } : Config).THRESHOLD_MAX_USERS) ∧
    autoAssignOne { defaultConfig with THRESHOLD_MAX_USERS := 2 }
        (fun _ => Except.ok 6) (fun _ => Except.ok 200) 0 []
        { ledger := [{ address := "0xa1", topUpDate := 0 },
                     { address := "0xa2", topUpDate := 0 }],
          alerts := [], granted := [] } "0xa3" =
      ({ ledger := [{ address := "0xa1", topUpDate := 0 },
                    { address := "0xa2", topUpDate := 0 }],
         alerts := [Alert.quotaExceeded "0xa3" 2], granted := [] },
       existingAllocationFor [] "0xa3" 0) :=
  ⟨⟨by decide, by decide, by decide, by decide⟩,
    ((quota_enforcement_sequential).1
      { defaultConfig with THRESHOLD_MAX_USERS := 2 }
      (fun _ => Except.ok 6) (fun _ => Except.ok 200) 0 []
      { ledger := [{ address := "0xa1", topUpDate := 0 },
                   { address := "0xa2", topUpDate := 0 }],
        alerts := [], granted := [] } "0xa3" 6
      (by decide) (by decide) (by decide)).1 (by decide)⟩

/-! ## Claim C7 -/

theorem setClaimStatus_get_other (m : List (String × List (Nat × Int)))
    (a k : String) (i : Nat) (v : Int) (h : k ≠ a) :
    mapGet (setClaimStatus m a i v) k = mapGet m k := by
  unfold setClaimStatus
  cases hm : mapGet m a with
  | none => rfl
  | some inner => exact mapGet_mapSet_ne _ _ _ _ h

theorem setClaimStatus_isSome (m : List (String × List (Nat × Int)))
    (a k : String) (i : Nat) (v : Int) :
    (mapGet (setClaimStatus m a i v) k).isSome = (mapGet m k).isSome := by
  unfold setClaimStatus
  cases hm : mapGet m a with
  | none => rfl
  | some inner =>
    by_cases hk : k = a
    · subst hk
      rw [mapGet_mapSet_self, hm]
      rfl
    · rw [mapGet_mapSet_ne _ _ _ _ hk]

theorem setClaimStatus_get_self (m : List (String × List (Nat × Int)))
    (a : String) (i : Nat) (v : Int) (inner : List (Nat × Int))
    (h : mapGet m a = some inner) :
    mapGet (setClaimStatus m a i v) a = some (mapSet inner i v) := by
  unfold setClaimStatus
  rw [h]
  exact mapGet_mapSet_self _ _ _

/-- A sentinel-zero entry writes a zero for every processed point system, never
issues a read, and preserves zeros already recorded. -/
theorem claimStatusFold_sentinel (claimRead : String → String → Except String Int)
    (e : String × String) (hs : e.2 = "" ∨ e.2 = ZERO_ADDRESS) :
    ∀ (psL : List PointSystem)
      (acc : List (String × List (Nat × Int)) × List (String × Nat))
      (m0 : List (Nat × Int)), mapGet acc.1 e.1 = some m0 →
      ∃ m, mapGet (psL.foldl (claimStatusStep claimRead e) acc).1 e.1 = some m ∧
        (∀ i, mapGet m0 i = some 0 → mapGet m i = some 0) ∧
        (∀ ps ∈ psL, mapGet m ps.id = some 0) ∧
        (psL.foldl (claimStatusStep claimRead e) acc).2 = acc.2 := by
  intro psL
  induction psL with
  | nil =>
    intro acc m0 h
    exact ⟨m0, h, fun i hi => hi, by simp, rfl⟩
  | cons ps rest ih =>
    intro acc m0 h
    have hstep : claimStatusStep claimRead e acc ps =
        (setClaimStatus acc.1 e.1 ps.id 0, acc.2) := by
      unfold claimStatusStep
      rw [if_pos hs]
    rw [List.foldl_cons, hstep]
    have h2 : mapGet (setClaimStatus acc.1 e.1 ps.id 0) e.1 =
        some (mapSet m0 ps.id 0) := setClaimStatus_get_self _ _ _ _ _ h
    obtain ⟨m, hm, hpres, hzero, hlog⟩ :=
      ih (setClaimStatus acc.1 e.1 ps.id 0, acc.2) (mapSet m0 ps.id 0) h2
    refine ⟨m, hm, ?_, ?_, hlog⟩
    · intro i hi
      apply hpres
      by_cases hip : i = ps.id
      · subst hip
        exact mapGet_mapSet_self _ _ _
      · rw [mapGet_mapSet_ne _ _ _ _ hip]
        exact hi
    · intro ps2 hps2
      rcases List.mem_cons.mp hps2 with heq | hmem2
      · subst heq
        exact hpres _ (mapGet_mapSet_self _ _ _)
      · exact hzero ps2 hmem2

/-- Processing one locker entry leaves the claim statuses of every other
address untouched. -/
theorem claimStatusFold_other (claimRead : String → String → Except String Int)
    (e : String × String) (k : String) (hk : k ≠ e.1) :
    ∀ (psL : List PointSystem) acc,
      mapGet ((psL.foldl (claimStatusStep claimRead e) acc).1) k =
        mapGet acc.1 k := by
  intro psL
  induction psL with
  | nil => intro acc; rfl
  | cons ps rest ih =>
    intro acc
    rw [List.foldl_cons, ih]
    by_cases hs : e.2 = "" ∨ e.2 = ZERO_ADDRESS
    · simp only [claimStatusStep, if_pos hs]
      exact setClaimStatus_get_other _ _ _ _ _ hk
    · simp only [claimStatusStep, if_neg hs]
      cases hcr : claimRead e.2 ps.gdaPoolAddress with
      | ok u => exact setClaimStatus_get_other _ _ _ _ _ hk
      | error er => exact setClaimStatus_get_other _ _ _ _ _ hk

/-- Processing one locker entry keeps every already-present address present. -/
theorem claimStatusFold_isSome (claimRead : String → String → Except String Int)
    (e : String × String) (k : String) :
    ∀ (psL : List PointSystem) acc,
      (mapGet ((psL.foldl (claimStatusStep claimRead e) acc).1) k).isSome =
        (mapGet acc.1 k).isSome := by
  intro psL
  induction psL with
  | nil => intro acc; rfl
  | cons ps rest ih =>
    intro acc
    rw [List.foldl_cons, ih]
    by_cases hs : e.2 = "" ∨ e.2 = ZERO_ADDRESS
    · simp only [claimStatusStep, if_pos hs]
      exact setClaimStatus_isSome _ _ _ _ _
    · simp only [claimStatusStep, if_neg hs]
      cases hcr : claimRead e.2 ps.gdaPoolAddress with
      | ok u => exact setClaimStatus_isSome _ _ _ _ _
      | error er => exact setClaimStatus_isSome _ _ _ _ _

/-- Reads are only logged for non-sentinel entries, so an address whose
entries are all sentinel never appears in the read log. -/
theorem claimStatusFold_log (claimRead : String → String → Except String Int)
    (e : String × String) (address : String)
    (hsent : e.1 = address → e.2 = "" ∨ e.2 = ZERO_ADDRESS) :
    ∀ (psL : List PointSystem) acc,
      (∀ q ∈ acc.2, q.1 ≠ address) →
      ∀ q ∈ (psL.foldl (claimStatusStep claimRead e) acc).2, q.1 ≠ address := by
  intro psL
  induction psL with
  | nil => intro acc hacc; exact hacc
  | cons ps rest ih =>
    intro acc hacc
    rw [List.foldl_cons]
    by_cases hs : e.2 = "" ∨ e.2 = ZERO_ADDRESS
    · have hstep : claimStatusStep claimRead e acc ps =
          (setClaimStatus acc.1 e.1 ps.id 0, acc.2) := by
        unfold claimStatusStep
        rw [if_pos hs]
      rw [hstep]
      exact ih _ hacc
    · have hne : e.1 ≠ address := fun h => hs (hsent h)
      have hstep : (claimStatusStep claimRead e acc ps).2 =
          acc.2 ++ [(e.1, ps.id)] := by
        unfold claimStatusStep
        rw [if_neg hs]
        cases hcr : claimRead e.2 ps.gdaPoolAddress with
        | ok u => rfl
        | error er => rfl
      apply ih
      intro q hq
      rw [hstep] at hq
      rcases List.mem_append.mp hq with hq1 | hq2
      · exact hacc q hq1
      · rcases List.mem_singleton.mp hq2 with rfl
        exact hne

/-- The read log of `checkAllClaimStatuses` never names an address whose
locker entries are all sentinel. -/
theorem claimStatusOuter_log (claimRead : String → String → Except String Int)
    (address : String) :
    ∀ (ℓ : List (String × String)) acc,
      (∀ p ∈ ℓ, p.1 = address → p.2 = "" ∨ p.2 = ZERO_ADDRESS) →
      (∀ q ∈ acc.2, q.1 ≠ address) →
      ∀ q ∈ (ℓ.foldl
          (fun acc e => pointSystems.foldl (claimStatusStep claimRead e) acc)
          acc).2, q.1 ≠ address := by
  intro ℓ
  induction ℓ with
  | nil => intro acc _ hacc; exact hacc
  | cons e rest ih =>
    intro acc hall hacc
    rw [List.foldl_cons]
    refine ih _ (fun p hp => hall p (List.mem_cons_of_mem _ hp)) ?_
    exact claimStatusFold_log claimRead e address
      (hall e (List.mem_cons_self _ _)) pointSystems acc hacc

/-- Once an address has (or acquires) an all-zero claim-status row, the row is
all-zero at the end of the outer fold; an address processed through a sentinel
entry acquires one. -/
theorem claimStatusOuter_allzero (claimRead : String → String → Except String Int)
    (address : String) :
    ∀ (ℓ : List (String × String)) acc,
      (∀ p ∈ ℓ, p.1 = address → p.2 = "" ∨ p.2 = ZERO_ADDRESS) →
      (mapGet acc.1 address).isSome = true →
      ((∃ p ∈ ℓ, p.1 = address) ∨
        (∃ m0, mapGet acc.1 address = some m0 ∧
          ∀ ps ∈ pointSystems, mapGet m0 ps.id = some 0)) →
      ∃ m, mapGet ((ℓ.foldl
          (fun acc e => pointSystems.foldl (claimStatusStep claimRead e) acc)
          acc).1) address = some m ∧
        ∀ ps ∈ pointSystems, mapGet m ps.id = some 0 := by
  intro ℓ
  induction ℓ with
  | nil =>
    intro acc _ _ hcase
    rcases hcase with ⟨p, hp, _⟩ | ⟨m0, hm0, hz⟩
    · cases hp
    · exact ⟨m0, hm0, hz⟩
  | cons e rest ih =>
    intro acc hall hQ hcase
    rw [List.foldl_cons]
    by_cases he : e.1 = address
    · have hs := hall e (List.mem_cons_self _ _) he
      obtain ⟨m0, hm0⟩ := Option.isSome_iff_exists.mp (by rw [← he] at hQ; exact hQ)
      obtain ⟨m, hm, _, hzero, _⟩ :=
        claimStatusFold_sentinel claimRead e hs pointSystems acc m0 hm0
      refine ih _ (fun p hp => hall p (List.mem_cons_of_mem _ hp)) ?_ (Or.inr ?_)
      · rw [← he, hm]
        rfl
      · exact ⟨m, by rw [← he, hm], hzero⟩
    · have hne : address ≠ e.1 := fun h => he h.symm
      have hQ2 : (mapGet ((pointSystems.foldl (claimStatusStep claimRead e) acc).1)
          address).isSome = true := by
        rw [claimStatusFold_isSome claimRead e address pointSystems acc]
        exact hQ
      refine ih _ (fun p hp => hall p (List.mem_cons_of_mem _ hp)) hQ2 ?_
      rcases hcase with ⟨p, hp, hpa⟩ | ⟨m0, hm0, hz⟩
      · rcases List.mem_cons.mp hp with heq | hmem2
        · exact absurd (heq ▸ hpa) he
        · exact Or.inl ⟨p, hmem2, hpa⟩
      · refine Or.inr ⟨m0, ?_, hz⟩
        rw [claimStatusFold_other claimRead e address hne pointSystems acc]
        exact hm0

/-- The initialization pass of `checkAllClaimStatuses` gives every listed
address an (empty) row. -/
theorem claimStatusInit_get (k : String) :
    ∀ (ℓ : List (String × String)) (m0 : List (String × List (Nat × Int))),
      mapGet (ℓ.foldl
        (fun m e => mapSet m e.1 ([] : List (Nat × Int))) m0) k =
      (if ∃ e ∈ ℓ, e.1 = k then some [] else mapGet m0 k) := by
  intro ℓ
  induction ℓ with
  | nil => intro m0; simp
  | cons e rest ih =>
    intro m0
    rw [List.foldl_cons, ih]
    by_cases hk : e.1 = k
    · by_cases hr : ∃ e2 ∈ rest, e2.1 = k
      · rw [if_pos hr, if_pos ⟨e, List.mem_cons_self _ _, hk⟩]
      · rw [if_neg hr, if_pos ⟨e, List.mem_cons_self _ _, hk⟩]
        subst hk
        exact mapGet_mapSet_self _ _ _
    · by_cases hr : ∃ e2 ∈ rest, e2.1 = k
      · obtain ⟨e2, he2, he2k⟩ := hr
        rw [if_pos ⟨e2, he2, he2k⟩, if_pos ⟨e2, List.mem_cons_of_mem _ he2, he2k⟩]
      · rw [if_neg hr, if_neg ?_]
        · exact mapGet_mapSet_ne _ _ _ _ (fun h => hk h.symm)
        · rintro ⟨e2, he2, he2k⟩
          rcases List.mem_cons.mp he2 with heq | hmem2
          · exact hk (heq ▸ he2k)
          · exact hr ⟨e2, hmem2, he2k⟩

/-- C7: for an address whose locker resolves to the sentinel zero address, no
per-pair claim-status read is logged for that address, its claim-status row is
zero for every configured point system, and in the computed eligibility record
a zero claim status gives claimedAmount = 0 and needToClaim = (points > 0). -/
theorem zero_locker_claim_fallback
    (claimRead : String → String → Except String Int)
    (lockerAddresses : List (String × String)) (address : String)
    (hmem : (address, ZERO_ADDRESS) ∈ lockerAddresses)
    (hall : ∀ p ∈ lockerAddresses, p.1 = address → p.2 = ZERO_ADDRESS) :
    (∀ q ∈ (checkAllClaimStatuses claimRead lockerAddresses).2, q.1 ≠ address) ∧
    (∃ m, mapGet (checkAllClaimStatuses claimRead lockerAddresses).1 address =
        some m ∧ ∀ ps ∈ pointSystems, mapGet m ps.id = some 0) ∧
    (∀ (ps : PointSystem) (allocations : List StackAllocation)
      (statuses : List (Nat × Int)) (r : PointSystemEligibility) (est : Int),
      mapGet statuses ps.id = some 0 →
      computePointSystemEligibility ps allocations statuses address =
        Except.ok (r, est) →
      r.claimedAmount = 0 ∧ r.needToClaim = decide (0 < r.points)) := by
  have hall2 : ∀ p ∈ lockerAddresses, p.1 = address →
      p.2 = "" ∨ p.2 = ZERO_ADDRESS :=
    fun p hp h => Or.inr (hall p hp h)
  refine ⟨?_, ?_, ?_⟩
  · simp only [checkAllClaimStatuses]
    exact claimStatusOuter_log claimRead address lockerAddresses _ hall2
      (fun q hq => absurd hq (List.not_mem_nil q))
  · simp only [checkAllClaimStatuses]
    refine claimStatusOuter_allzero claimRead address lockerAddresses _ hall2 ?_
      (Or.inl ⟨(address, ZERO_ADDRESS), hmem, rfl⟩)
    rw [claimStatusInit_get address lockerAddresses [],
      if_pos ⟨(address, ZERO_ADDRESS), hmem, rfl⟩]
    rfl
  · intro ps allocations statuses r est hst hok
    simp only [computePointSystemEligibility, hst] at hok
    split at hok
    · exact absurd hok (by simp)
    · rw [Except.ok.injEq, Prod.mk.injEq] at hok
      rw [← hok.1]
      constructor
      · simp
        decide
      · simp

/-! ## Claim C3 -/

/-- One `fetchAllAllocations` step always stores the fetched list, an error
degrading to the empty list. -/
theorem allocStep_fst
    (f : Nat → List String → Except String (List StackAllocation))
    (addrs : List String)
    (acc : List (Nat × List StackAllocation) × List Alert) (ps : PointSystem) :
    (allocStep f addrs acc ps).1 =
      mapSet acc.1 ps.id ((f ps.id addrs).toOption.getD []) := by
  unfold allocStep
  cases hf : f ps.id addrs with
  | ok a => rfl
  | error e => rfl

theorem allocFold_get_notmem
    (f : Nat → List String → Except String (List StackAllocation))
    (addrs : List String) (k : Nat) :
    ∀ (ℓ : List PointSystem) acc, k ∉ ℓ.map (·.id) →
      mapGet ((ℓ.foldl (allocStep f addrs) acc).1) k = mapGet acc.1 k := by
  intro ℓ
  induction ℓ with
  | nil => intro acc _; rfl
  | cons ps rest ih =>
    intro acc hk
    rw [List.foldl_cons, ih _ (fun h => hk (List.mem_cons_of_mem _ h)),
      allocStep_fst]
    exact mapGet_mapSet_ne _ _ _ _
      (fun h => hk (h ▸ List.mem_cons_self _ _))

/-- Every configured point system ends up mapped to its fetched list (empty on
failure), provided the configured ids are distinct. -/
theorem allocFold_get
    (f : Nat → List String → Except String (List StackAllocation))
    (addrs : List String) :
    ∀ (ℓ : List PointSystem) acc, (ℓ.map (·.id)).Nodup →
      ∀ ps ∈ ℓ, mapGet ((ℓ.foldl (allocStep f addrs) acc).1) ps.id =
        some ((f ps.id addrs).toOption.getD []) := by
  intro ℓ
  induction ℓ with
  | nil => intro acc _ ps hps; cases hps
  | cons ps0 rest ih =>
    intro acc hnd ps hps
    have hnd2 := List.nodup_cons.mp hnd
    rcases List.mem_cons.mp hps with heq | hmem
    · subst heq
      rw [List.foldl_cons,
        allocFold_get_notmem f addrs ps.id rest _ hnd2.1, allocStep_fst]
      exact mapGet_mapSet_self _ _ _
    · rw [List.foldl_cons]
      exact ih _ hnd2.2 ps hmem

theorem allocFold_log_mono
    (f : Nat → List String → Except String (List StackAllocation))
    (addrs : List String) :
    ∀ (ℓ : List PointSystem) acc (q : Alert), q ∈ acc.2 →
      q ∈ (ℓ.foldl (allocStep f addrs) acc).2 := by
  intro ℓ
  induction ℓ with
  | nil => intro acc q hq; exact hq
  | cons ps rest ih =>
    intro acc q hq
    rw [List.foldl_cons]
    apply ih
    unfold allocStep
    cases hf : f ps.id addrs with
    | ok a => exact hq
    | error e => exact List.mem_append_left _ hq

/-- A failing point system produces its alert, naming the system and the
addresses. -/
theorem allocFold_alert
    (f : Nat → List String → Except String (List StackAllocation))
    (addrs : List String) (psX : PointSystem) (msg : String)
    (hf : f psX.id addrs = Except.error msg) :
    ∀ (ℓ : List PointSystem) acc, psX ∈ ℓ →
      Alert.allocFetchFailed psX.id addrs ∈ (ℓ.foldl (allocStep f addrs) acc).2 := by
  intro ℓ
  induction ℓ with
  | nil => intro acc hmem; cases hmem
  | cons ps rest ih =>
    intro acc hmem
    rw [List.foldl_cons]
    rcases List.mem_cons.mp hmem with heq | hmem2
    · subst heq
      apply allocFold_log_mono
      unfold allocStep
      rw [hf]
      exact List.mem_append_right _ (List.mem_singleton.mpr rfl)
    · exact ih _ hmem2

/-- Two fetchers that degrade to the same lists produce the same allocation
map (the alert logs may differ). -/
theorem allocFold_map_congr
    (f g : Nat → List String → Except String (List StackAllocation))
    (addrs : List String)
    (h : ∀ i, (f i addrs).toOption.getD [] = (g i addrs).toOption.getD []) :
    ∀ (ℓ : List PointSystem) acc acc', acc.1 = acc'.1 →
      (ℓ.foldl (allocStep f addrs) acc).1 =
        (ℓ.foldl (allocStep g addrs) acc').1 := by
  intro ℓ
  induction ℓ with
  | nil => intro acc acc' hacc; exact hacc
  | cons ps rest ih =>
    intro acc acc' hacc
    rw [List.foldl_cons, List.foldl_cons]
    apply ih
    rw [allocStep_fst, allocStep_fst, hacc, h ps.id]

/-- `_checkEligibility` returns the same result and ledger for two
environments that differ only in fields it does not consult and in fetchers
that produce the same allocation map. -/
theorem checkEligibilityImpl_congr (cfg : Config) (env env' : Env)
    (addresses : List String)
    (hmap : (fetchAllAllocations env.allocFetch addresses).1 =
      (fetchAllAllocations env'.allocFetch addresses).1)
    (hn : env.nonce = env'.nonce) (hg : env.grantHttp = env'.grantHttp)
    (hl : env.lockers = env'.lockers)
    (hc : env.chainTotalUnits = env'.chainTotalUnits)
    (hr : env.claimRead = env'.claimRead) (hw : env.now = env'.now)
    (hd : env.ledger = env'.ledger) :
    (checkEligibilityImpl cfg env addresses).result =
      (checkEligibilityImpl cfg env' addresses).result ∧
    (checkEligibilityImpl cfg env addresses).ledger =
      (checkEligibilityImpl cfg env' addresses).ledger := by
  simp only [checkEligibilityImpl]
  rw [hmap, hn, hg, hl, hc, hr, hw, hd]
  exact ⟨rfl, rfl⟩

/-- The memoized fan-out preserves the congruence of
`checkEligibilityImpl_congr` across the whole batch. -/
theorem memoizedFold_congr (cfg : Config) (env env' : Env) (name : String)
    (hmapA : ∀ A, (fetchAllAllocations env.allocFetch A).1 =
      (fetchAllAllocations env'.allocFetch A).1)
    (hn : env.nonce = env'.nonce) (hg : env.grantHttp = env'.grantHttp)
    (hl : env.lockers = env'.lockers)
    (hc : env.chainTotalUnits = env'.chainTotalUnits)
    (hr : env.claimRead = env'.claimRead) (hw : env.now = env'.now) :
    ∀ (rest : List String) (acc acc' : BatchOutcome),
      acc.result = acc'.result → acc.ledger = acc'.ledger →
      (memoizedFold cfg env name rest acc).result =
        (memoizedFold cfg env' name rest acc').result ∧
      (memoizedFold cfg env name rest acc).ledger =
        (memoizedFold cfg env' name rest acc').ledger := by
  intro rest
  induction rest with
  | nil => intro acc acc' h1 h2; exact ⟨h1, h2⟩
  | cons a rest ih =>
    intro acc acc' h1 h2
    have hinner := checkEligibilityImpl_congr cfg
      { env with ledger := acc.ledger } { env' with ledger := acc'.ledger }
      [a, name] (hmapA [a, name]) hn hg hl hc hr hw h2
    simp only [memoizedFold]
    exact ih _ _ (by rw [h1, hinner.1]) hinner.2

/-- C3: if the allocation fetch of one configured point system always fails,
`fetchAllAllocations` still maps every other point system to its fetched list,
maps the failed system to the empty list, emits the alert naming the failed
system and the addresses, and `checkEligibility` returns exactly the result it
would return had the failed fetch returned an empty list, so the single
failure does not raise on its own. -/
theorem fetchAllAllocations_partial_failure (cfg : Config) (env : Env)
    (addresses : List String) (apiConsumerName : String) (psX : PointSystem)
    (hmem : psX ∈ pointSystems)
    (hfail : ∀ A, (env.allocFetch psX.id A).toOption = none) :
    mapGet (fetchAllAllocations env.allocFetch addresses).1 psX.id = some [] ∧
    (∀ ps ∈ pointSystems, ∀ v, env.allocFetch ps.id addresses = Except.ok v →
      mapGet (fetchAllAllocations env.allocFetch addresses).1 ps.id = some v) ∧
    Alert.allocFetchFailed psX.id addresses ∈
      (fetchAllAllocations env.allocFetch addresses).2 ∧
    (checkEligibility cfg env addresses apiConsumerName).result =
      (checkEligibility cfg
        { env with allocFetch := fun i A =>
            if i = psX.id then Except.ok [] else env.allocFetch i A }
        addresses apiConsumerName).result := by
  have hnodup : (pointSystems.map (·.id)).Nodup := by decide
  refine ⟨?_, ?_, ?_, ?_⟩
  · have h := allocFold_get env.allocFetch addresses pointSystems ([], [])
      hnodup psX hmem
    rw [fetchAllAllocations, h]
    rw [show (env.allocFetch psX.id addresses).toOption = none from
      hfail addresses]
    rfl
  · intro ps hps v hv
    have h := allocFold_get env.allocFetch addresses pointSystems ([], [])
      hnodup ps hps
    rw [fetchAllAllocations, h, hv]
    rfl
  · obtain ⟨msg, hmsg⟩ : ∃ msg, env.allocFetch psX.id addresses =
        Except.error msg := by
      cases he : env.allocFetch psX.id addresses with
      | ok a =>
        have := hfail addresses
        rw [he] at this
        cases this
      | error msg => exact ⟨msg, rfl⟩
    rw [fetchAllAllocations]
    exact allocFold_alert env.allocFetch addresses psX msg hmsg
      pointSystems ([], []) hmem
  · have hval : ∀ i A, (env.allocFetch i A).toOption.getD [] =
        (((fun i A => if i = psX.id then Except.ok [] else env.allocFetch i A) :
          Nat → List String → Except String (List StackAllocation)) i A).toOption.getD [] := by
      intro i A
      show (env.allocFetch i A).toOption.getD [] =
        (if i = psX.id then Except.ok [] else env.allocFetch i A).toOption.getD []
      by_cases hi : i = psX.id
      · subst hi
        rw [if_pos rfl,
          show (env.allocFetch psX.id A).toOption = none from hfail A]
        rfl
      · rw [if_neg hi]
    have hmapA : ∀ A, (fetchAllAllocations env.allocFetch A).1 =
        (fetchAllAllocations
          ({ env with allocFetch := fun i A =>
              if i = psX.id then Except.ok [] else env.allocFetch i A }).allocFetch A).1 := by
      intro A
      rw [fetchAllAllocations, fetchAllAllocations]
      exact allocFold_map_congr _ _ A (fun i => hval i A) pointSystems
        ([], []) ([], []) rfl
    have hfold := memoizedFold_congr cfg env
      { env with allocFetch := fun i A =>
          if i = psX.id then Except.ok [] else env.allocFetch i A }
      apiConsumerName hmapA rfl rfl rfl rfl rfl rfl addresses
      { result := Except.ok [], alerts := [], ledger := env.ledger }
      { result := Except.ok [], alerts := [], ledger := env.ledger } rfl rfl
    simp only [checkEligibility, checkEligibilityMemoized]
    rw [hfold.1]

/-- C3 witness: a fetcher that always fails for point system 7695 and returns
empty lists elsewhere. -/
theorem fetchAllAllocations_partial_failure_witness :
    (({ id := 7695, name := "AlfaFrens",
        gdaPoolAddress := "0x0ac6aCe504CF4583dE327808834Aaf8AA3294FE3",
        flowrate := 1607510288065843621, totalUnits := 0, apiKey := "" } :
        PointSystem) ∈ pointSystems ∧
      (∀ A, ((({ trivialEnv with allocFetch := fun i _ =>
          if i = 7695 then Except.error "down" else Except.ok [] } :
          Env)).allocFetch 7695 A).toOption = none)) ∧
    mapGet (fetchAllAllocations
      ({ trivialEnv with allocFetch := fun i _ =>
          if i = 7695 then Except.error "down" else Except.ok [] } :
        Env).allocFetch ["0xaaa"]).1 7695 = some [] ∧
    Alert.allocFetchFailed 7695 ["0xaaa"] ∈
      (fetchAllAllocations
        ({ trivialEnv with allocFetch := fun i _ =>
            if i = 7695 then Except.error "down" else Except.ok [] } :
          Env).allocFetch ["0xaaa"]).2 :=
  ⟨⟨by decide, fun _ => rfl⟩,
    (fetchAllAllocations_partial_failure defaultConfig
      { trivialEnv with allocFetch := fun i _ =>
          if i = 7695 then Except.error "down" else Except.ok [] }
      ["0xaaa"] "consumer"
      { id := 7695, name := "AlfaFrens",
        gdaPoolAddress := "0x0ac6aCe504CF4583dE327808834Aaf8AA3294FE3",
        flowrate := 1607510288065843621, totalUnits := 0, apiKey := "" }
      (by decide) (fun _ => rfl)).1,
    (fetchAllAllocations_partial_failure defaultConfig
      { trivialEnv with allocFetch := fun i _ =>
          if i = 7695 then Except.error "down" else Except.ok [] }
      ["0xaaa"] "consumer"
      { id := 7695, name := "AlfaFrens",
        gdaPoolAddress := "0x0ac6aCe504CF4583dE327808834Aaf8AA3294FE3",
        flowrate := 1607510288065843621, totalUnits := 0, apiKey := "" }
      (by decide) (fun _ => rfl)).2.2.1⟩

/-- C7 witness: `zero_locker_claim_fallback` applied to a one-entry sentinel
locker map. -/
theorem zero_locker_claim_fallback_witness :
    (("0xaaa", ZERO_ADDRESS) ∈ [("0xaaa", ZERO_ADDRESS)] ∧
      ∀ p ∈ [("0xaaa", ZERO_ADDRESS)], p.1 = "0xaaa" → p.2 = ZERO_ADDRESS) ∧
    ((∀ q ∈ (checkAllClaimStatuses (fun _ _ => Except.ok 7)
        [("0xaaa", ZERO_ADDRESS)]).2, q.1 ≠ "0xaaa") ∧
      (∃ m, mapGet (checkAllClaimStatuses (fun _ _ => Except.ok 7)
          [("0xaaa", ZERO_ADDRESS)]).1 "0xaaa" = some m ∧
        ∀ ps ∈ pointSystems, mapGet m ps.id = some 0) ∧
      (∀ (ps : PointSystem) (allocations : List StackAllocation)
        (statuses : List (Nat × Int)) (r : PointSystemEligibility) (est : Int),
        mapGet statuses ps.id = some 0 →
        computePointSystemEligibility ps allocations statuses "0xaaa" =
          Except.ok (r, est) →
        r.claimedAmount = 0 ∧ r.needToClaim = decide (0 < r.points))) :=
  ⟨⟨by decide, by decide⟩,
    zero_locker_claim_fallback (fun _ _ => Except.ok 7)
      [("0xaaa", ZERO_ADDRESS)] "0xaaa" (by decide) (by decide)⟩

end SupEligibility
